import Mathlib

/-!
Verification development for the request-admission layer of the namngam web
application: fixed-window rate limiting, client identity resolution, CSRF
token management, the admin session gate, security headers, and startup
configuration validation. Definitions are shallow embeddings of the
TypeScript source; timestamps are naturals (milliseconds, as produced by
the platform clock), and JavaScript objects and maps are modelled as Lean
structures and association lists with insertion-order semantics.
-/

set_option autoImplicit false

namespace Namngam

/-- Truthiness of an optional string, as JavaScript evaluates it in a
condition: absent values and the empty string are falsy. -/
def jsTruthy (s : Option String) : Bool :=
  match s with
  | none => false
  | some v => !(v = "")

/-- First entry found for a key in an association list, mirroring
Map.prototype.get on a map whose keys are unique. -/
def mapGet {α : Type} (store : List (String × α)) (k : String) : Option α :=
  match store with
  | [] => none
  | (k₁, v) :: rest => if k₁ = k then some v else mapGet rest k

/-- Replace the first entry for a key, or append a fresh one, mirroring
Map.prototype.set (insertion order is preserved on update). -/
def mapSet {α : Type} (store : List (String × α)) (k : String) (v : α) :
    List (String × α) :=
  match store with
  | [] => [(k, v)]
  | (k₁, v₁) :: rest =>
      if k₁ = k then (k, v) :: rest else (k₁, v₁) :: mapSet rest k v

/-- Remove the entries for a key, mirroring Map.prototype.delete on a map
whose keys are unique. -/
def mapDelete {α : Type} (store : List (String × α)) (k : String) :
    List (String × α) :=
  store.filter (fun p => !(p.1 = k))

/-- One value of the rateLimitStore map in src/lib/security.ts: an object
with fields count and resetTime. -/
structure RLEntry where
  count : Nat
  resetTime : Nat
deriving DecidableEq

/-- The rateLimitStore map of src/lib/security.ts, keyed by identifier. -/
abbrev RLStore := List (String × RLEntry)

/-- The object returned by the rateLimit function of src/lib/security.ts.
Fields absent from the returned JavaScript object literal are modelled as
none. -/
structure RLResult where
  success : Bool
  remaining : Option Int
  error : Option String
  resetTime : Option Nat
deriving DecidableEq

/-- RATE_LIMIT_WINDOW of SECURITY_CONFIG in src/lib/security.ts:
fifteen minutes in milliseconds. -/
def RATE_LIMIT_WINDOW : Nat := 15 * 60 * 1000

/-- RATE_LIMIT_MAX_REQUESTS of SECURITY_CONFIG in src/lib/security.ts. -/
def RATE_LIMIT_MAX_REQUESTS : Nat := 100

/-- The cleanup loop at the top of rateLimit in src/lib/security.ts: every
entry whose resetTime is strictly in the past is deleted. -/
def rlCleanup (now : Nat) (store : RLStore) : RLStore :=
  store.filter (fun p => !(decide (p.2.resetTime < now)))

/-- The rateLimit function of src/lib/security.ts. The ambient clock
(Date.now) and the shared rateLimitStore map are passed explicitly; the
function returns the result object together with the updated store. The
unused local windowStart of the source is omitted. -/
def rateLimit (identifier : String) (maxRequests : Nat) (now : Nat)
    (store : RLStore) : RLResult × RLStore :=
  let cleaned := rlCleanup now store
  match mapGet cleaned identifier with
  | none =>
      (⟨true, some ((maxRequests : Int) - 1), none, none⟩,
       mapSet cleaned identifier ⟨1, now + RATE_LIMIT_WINDOW⟩)
  | some current =>
      if maxRequests ≤ current.count then
        (⟨false, none, some "Rate limit exceeded", some current.resetTime⟩,
         cleaned)
      else
        (⟨true, some ((maxRequests : Int) - ((current.count : Int) + 1)), none, none⟩,
         mapSet cleaned identifier ⟨current.count + 1, current.resetTime⟩)

/-- Sequential composition of rateLimit calls for one identifier at the
given sequence of clock readings, threading the shared store. -/
def runCalls (identifier : String) (maxRequests : Nat) (times : List Nat)
    (store : RLStore) : List RLResult × RLStore :=
  match times with
  | [] => ([], store)
  | t :: rest =>
      let step := rateLimit identifier maxRequests t store
      let tail := runCalls identifier maxRequests rest step.2
      (step.1 :: tail.1, tail.2)

/-- Closed form for the results of a run of rateLimit calls against a live
window that currently holds count c: successes while the count is below the
limit, rejections afterwards. -/
def rlExpected (maxRequests c reset : Nat) : Nat → List RLResult
  | 0 => []
  | n + 1 =>
      if c < maxRequests then
        ⟨true, some ((maxRequests : Int) - ((c : Int) + 1)), none, none⟩ ::
          rlExpected maxRequests (c + 1) reset n
      else
        ⟨false, none, some "Rate limit exceeded", some reset⟩ ::
          rlExpected maxRequests c reset n

/-- JavaScript String.prototype.startsWith, over the character data. -/
def strStartsWith (s p : String) : Bool :=
  p.data.isPrefixOf s.data

/-- JavaScript String.prototype.trim on character lists: strip whitespace
from both ends. -/
def trimChars (l : List Char) : List Char :=
  ((l.dropWhile Char.isWhitespace).reverse.dropWhile Char.isWhitespace).reverse

/-- JavaScript String.prototype.split with separator comma: the list of
comma-free segments; splitting the empty string yields one empty segment. -/
def splitComma : List Char → List (List Char)
  | [] => [[]]
  | c :: rest =>
      if c = ',' then [] :: splitComma rest
      else
        match splitComma rest with
        | [] => [[c]]
        | g :: gs => (c :: g) :: gs

/-- The getClientIP function of src/lib/security.ts. The two header reads
and the two transport-level fields are passed explicitly; absent headers
are none, and JavaScript truthiness (empty string is falsy) governs each
branch. -/
def getClientIP (forwarded realIP requestIP remoteAddress : Option String) :
    String :=
  if jsTruthy forwarded then
    ⟨trimChars ((splitComma (forwarded.getD "").data).headD [])⟩
  else if jsTruthy realIP then realIP.getD ""
  else if jsTruthy requestIP then requestIP.getD ""
  else if jsTruthy remoteAddress then remoteAddress.getD ""
  else "unknown"

/-- One value of the csrfTokens map in src/lib/csrf.ts: an object with the
token string and its expiry timestamp. -/
structure CSRFEntry where
  token : String
  expires : Nat
deriving DecidableEq

/-- The csrfTokens map of src/lib/csrf.ts, keyed by the session cookie
value. -/
abbrev CSRFStore := List (String × CSRFEntry)

/-- The session-cookie resolution shared by the CSRF routines: the value of
the first cookie, or of the second when the first is absent or empty,
mirroring the JavaScript or-chain over the two cookie names. -/
def jsOrStr (a b : Option String) : Option String :=
  if jsTruthy a then a else b

/-- The validateCSRFToken function of src/lib/csrf.ts. Cookies, clock and
the shared token map are explicit; the function returns the boolean verdict
together with the updated map (an entry found expired is deleted). -/
def validateCSRFToken (store : CSRFStore) (cookieA cookieB : Option String)
    (token : String) (now : Nat) : Bool × CSRFStore :=
  let sessionToken := jsOrStr cookieA cookieB
  if jsTruthy sessionToken then
    let s := sessionToken.getD ""
    match mapGet store s with
    | none => (false, store)
    | some stored =>
        if stored.token = token then
          if stored.expires < now then (false, mapDelete store s)
          else (true, store)
        else (false, store)
  else (false, store)

/-- The setCSRFToken function of src/lib/csrf.ts. The randomBytes call of
generateCSRFToken is modelled by passing the freshly generated value as the
freshToken argument; the function stores it with a 24 hour expiry, sweeps
entries whose expiry is strictly past, and returns the token with the
updated map. -/
def setCSRFToken (store : CSRFStore) (sessionToken freshToken : String)
    (now : Nat) : String × CSRFStore :=
  let store₁ := mapSet store sessionToken ⟨freshToken, now + 24 * 60 * 60 * 1000⟩
  (freshToken, store₁.filter (fun p => !(decide (p.2.expires < now))))

/-- Outcome of the withCSRFProtection wrapper of src/lib/csrf.ts: either
the wrapped handler runs, or the request is rejected with an HTTP status
and the JSON body fields success and error. -/
inductive CSRFGateResult where
  | forwarded
  | rejected (status : Nat) (success : Bool) (error : String)
deriving DecidableEq

/-- The withCSRFProtection wrapper of src/lib/csrf.ts: GET requests run the
handler directly; otherwise a missing (or empty) x-csrf-token header is
rejected as missing, a header failing validateCSRFToken is rejected as
invalid, and only then does the wrapped handler run. -/
def withCSRFProtection (store : CSRFStore) (cookieA cookieB : Option String)
    (method : String) (headerToken : Option String) (now : Nat) :
    CSRFGateResult :=
  if method = "GET" then .forwarded
  else if !jsTruthy headerToken then .rejected 403 false "CSRF token missing"
  else if !(validateCSRFToken store cookieA cookieB (headerToken.getD "") now).1 then
    .rejected 403 false "Invalid CSRF token"
  else .forwarded

/-- The decoded next-auth JWT as far as the middleware inspects it: only
the optional numeric exp claim (seconds since epoch). -/
structure JWTToken where
  exp : Option Nat
deriving DecidableEq

/-- Outcome of the middleware function of src/middleware.ts, with the
response headers the middleware itself sets. next carries the security
headers and, on the authorized admin path, the validated session token;
limited is the 429 rate-limit response built with only a Content-Type
header; redirectLogin records the callbackUrl and optional error query
parameters of the login redirect (NextResponse.redirect sets no security
headers); intl is the localized pass-through, whose header copy loop
iterates Object.entries of a Headers instance and therefore copies
nothing. -/
inductive MWOutcome where
  | next (headers : List (String × String)) (session : Option JWTToken)
  | limited (status : Nat) (headers : List (String × String))
  | redirectLogin (callbackUrl : String) (errorParam : Option String)
      (headers : List (String × String))
  | intl (headers : List (String × String))
deriving DecidableEq

/-- The five security headers set on the response object at the top of the
middleware function of src/middleware.ts. -/
def securityHeaders : List (String × String) :=
  [("X-Content-Type-Options", "nosniff"),
   ("X-Frame-Options", "DENY"),
   ("X-XSS-Protection", "1; mode=block"),
   ("Referrer-Policy", "strict-origin-when-cross-origin"),
   ("Permissions-Policy", "camera=(), microphone=(), geolocation=()")]

/-- The headers carried by a middleware outcome. -/
def outcomeHeaders : MWOutcome → List (String × String)
  | .next h _ => h
  | .limited _ h => h
  | .redirectLogin _ _ h => h
  | .intl h => h

/-- The middleware function of src/middleware.ts. The request is reduced to
its pathname, the resolved client IP, the clock reading in milliseconds,
and the decoded session token (the awaited getToken result); the shared
apiRateLimit map is threaded explicitly. The rate-limit block mirrors the
inline fixed-window code (cleanup, create-or-increment, 429 on a full
window); the admin block mirrors the getToken checks, where the expiry test
fires only for a truthy numeric exp claim and compares exp against
Date.now() divided by 1000, rendered here without division as
1000 * exp < nowMs. -/
def middleware (pathname clientIP : String) (nowMs : Nat)
    (token : Option JWTToken) (store : RLStore) : MWOutcome × RLStore :=
  if strStartsWith pathname "/admin" || strStartsWith pathname "/api" ||
      strStartsWith pathname "/_next" || strStartsWith pathname "/uploads" then
    let rl : Option MWOutcome × RLStore :=
      if strStartsWith pathname "/api" &&
          !(strStartsWith pathname "/api/public/settings") then
        let cleaned := rlCleanup nowMs store
        let key := "api:" ++ clientIP
        match mapGet cleaned key with
        | none => (none, mapSet cleaned key ⟨1, nowMs + RATE_LIMIT_WINDOW⟩)
        | some current =>
            if RATE_LIMIT_MAX_REQUESTS ≤ current.count then
              (some (.limited 429 [("Content-Type", "application/json")]), cleaned)
            else
              (none, mapSet cleaned key ⟨current.count + 1, current.resetTime⟩)
      else (none, store)
    match rl with
    | (some out, store₁) => (out, store₁)
    | (none, store₁) =>
        if strStartsWith pathname "/admin" && !(pathname = "/admin/login") then
          match token with
          | none => (.redirectLogin pathname none [], store₁)
          | some t =>
              match t.exp with
              | some e =>
                  if e ≠ 0 ∧ 1000 * e < nowMs then
                    (.redirectLogin pathname (some "session_expired") [], store₁)
                  else (.next securityHeaders (some t), store₁)
              | none => (.next securityHeaders (some t), store₁)
        else (.next securityHeaders none, store₁)
  else (.intl [], store)

/-- The result of parsing a URL string, as far as the validator inspects
it: the protocol (scheme followed by a colon) and the lowercased hostname,
mirroring the platform URL constructor on the scheme://authority forms the
configuration uses. -/
structure JSURL where
  protocol : String
  hostname : String
deriving DecidableEq

/-- Split a character list at the first occurrence of the three characters
colon slash slash, returning the scheme and the remainder. -/
def splitScheme : List Char → Option (List Char × List Char)
  | [] => none
  | ':' :: '/' :: '/' :: rest => some ([], rest)
  | c :: rest =>
      match splitScheme rest with
      | some (a, b) => some (c :: a, b)
      | none => none

/-- The segment after the last at-sign, used to drop userinfo from a URL
authority. -/
def afterLastAt (l : List Char) : List Char :=
  (l.reverse.takeWhile (fun c => !(decide (c = '@')))).reverse

/-- Model of the platform URL constructor for the configuration checks:
strings without a scheme separator fail to parse (the constructor throws),
and otherwise the protocol and the lowercased host (authority with
userinfo and port stripped) are extracted. -/
def parseURL (s : String) : Option JSURL :=
  match splitScheme s.data with
  | none => none
  | some (scheme, rest) =>
      if scheme = [] then none
      else
        let authority := rest.takeWhile (fun c => !(decide (c = '/')))
        let host := (afterLastAt authority).takeWhile (fun c => !(decide (c = ':')))
        some ⟨⟨scheme ++ [':']⟩, ⟨host.map Char.toLower⟩⟩

/-- The weak-secret patterns of the environment validator: a
case-insensitive prefix among test, dev, example, default, 123, password,
secret, or a string of at least 32 copies of one character (the anchored
repeated-character regular expression). -/
def weakSecretPattern (s : String) : Bool :=
  let ls := s.data.map Char.toLower
  "test".data.isPrefixOf ls || "dev".data.isPrefixOf ls ||
  "example".data.isPrefixOf ls || "default".data.isPrefixOf ls ||
  "123".data.isPrefixOf ls || "password".data.isPrefixOf ls ||
  "secret".data.isPrefixOf ls ||
  (decide (32 ≤ s.data.length) &&
    match s.data with
    | [] => false
    | c :: rest => rest.all (fun d => decide (d = c)))

/-- The environment variables the validator of src/lib/env-validator.ts
reads, each absent (none) or bound to a string. -/
structure Env where
  DATABASE_URL : Option String
  NEXTAUTH_URL : Option String
  NEXTAUTH_SECRET : Option String
  NODE_ENV : Option String
  REDIS_URL : Option String
  GOOGLE_ANALYTICS_ID : Option String
  FACEBOOK_PIXEL_ID : Option String
deriving DecidableEq

/-- The EnvValidationResult shape of src/lib/env-validator.ts. -/
structure EnvValidationResult where
  valid : Bool
  errors : List String
  warnings : List String
deriving DecidableEq

/-- The required-variable loop of validateEnvironmentVariables: one error
per missing (or empty) required variable, in source order. -/
def requiredErrors (env : Env) : List String :=
  (if jsTruthy env.DATABASE_URL then []
   else ["Missing required environment variable: DATABASE_URL"]) ++
  (if jsTruthy env.NEXTAUTH_URL then []
   else ["Missing required environment variable: NEXTAUTH_URL"]) ++
  (if jsTruthy env.NEXTAUTH_SECRET then []
   else ["Missing required environment variable: NEXTAUTH_SECRET"]) ++
  (if jsTruthy env.NODE_ENV then []
   else ["Missing required environment variable: NODE_ENV"])

/-- The recommended-variable loop of validateEnvironmentVariables: one
warning per missing recommended variable. -/
def recommendedWarnings (env : Env) : List String :=
  (if jsTruthy env.REDIS_URL then []
   else ["Missing recommended environment variable: REDIS_URL"]) ++
  (if jsTruthy env.GOOGLE_ANALYTICS_ID then []
   else ["Missing recommended environment variable: GOOGLE_ANALYTICS_ID"]) ++
  (if jsTruthy env.FACEBOOK_PIXEL_ID then []
   else ["Missing recommended environment variable: FACEBOOK_PIXEL_ID"])

/-- The DATABASE_URL block of validateEnvironmentVariables: the errors it
pushes (parse failure or wrong scheme). -/
def dbErrors (env : Env) : List String :=
  if jsTruthy env.DATABASE_URL then
    match parseURL (env.DATABASE_URL.getD "") with
    | none => ["DATABASE_URL is not a valid URL"]
    | some u =>
        if u.protocol = "postgresql:" then []
        else ["DATABASE_URL must use postgresql:// protocol"]
  else []

/-- The DATABASE_URL block of validateEnvironmentVariables: the warning it
pushes (localhost connection string in production). -/
def dbWarnings (env : Env) : List String :=
  if jsTruthy env.DATABASE_URL then
    match parseURL (env.DATABASE_URL.getD "") with
    | none => []
    | some u =>
        if (u.hostname = "" ∨ u.hostname = "localhost") ∧
            env.NODE_ENV = some "production" then
          ["DATABASE_URL should not use localhost in production"]
        else []
  else []

/-- The NEXTAUTH_URL block of validateEnvironmentVariables: parse failure,
scheme restriction, and the https requirement that applies only when the
environment tag is production. -/
def authUrlErrors (env : Env) : List String :=
  if jsTruthy env.NEXTAUTH_URL then
    match parseURL (env.NEXTAUTH_URL.getD "") with
    | none => ["NEXTAUTH_URL is not a valid URL"]
    | some u =>
        (if u.protocol = "http:" ∨ u.protocol = "https:" then []
         else ["NEXTAUTH_URL must use http:// or https:// protocol"]) ++
        (if env.NODE_ENV = some "production" ∧ ¬ u.protocol = "https:" then
           ["NEXTAUTH_URL must use https:// in production"] else [])
  else []

/-- The NEXTAUTH_SECRET block of validateEnvironmentVariables: minimum
length and the weak-pattern loop (one error at most, pushed on the first
matching pattern). -/
def secretErrors (env : Env) : List String :=
  if jsTruthy env.NEXTAUTH_SECRET then
    (if (env.NEXTAUTH_SECRET.getD "").length < 32 then
       ["NEXTAUTH_SECRET must be at least 32 characters long"] else []) ++
    (if weakSecretPattern (env.NEXTAUTH_SECRET.getD "") then
       ["NEXTAUTH_SECRET appears to be weak or default"] else [])
  else []

/-- The NODE_ENV enumeration check of validateEnvironmentVariables. -/
def nodeEnvErrors (env : Env) : List String :=
  if jsTruthy env.NODE_ENV ∧
      ¬ (env.NODE_ENV = some "development" ∨ env.NODE_ENV = some "production" ∨
         env.NODE_ENV = some "test") then
    ["NODE_ENV must be one of: development, production, test"]
  else []

/-- The validateEnvironmentVariables function of src/lib/env-validator.ts:
the error and warning lists are accumulated block by block in source order,
and valid holds exactly when no error was recorded. -/
def validateEnvironmentVariables (env : Env) : EnvValidationResult :=
  let errors := requiredErrors env ++ dbErrors env ++ authUrlErrors env ++
    secretErrors env ++ nodeEnvErrors env
  ⟨errors.isEmpty, errors, recommendedWarnings env ++ dbWarnings env⟩

/-! Helper lemmas about the association-list map model. -/

theorem isEmpty_false_of_mem {α : Type} {l : List α} {x : α} (h : x ∈ l) :
    l.isEmpty = false := by
  cases l with
  | nil => cases h
  | cons a as => rfl

theorem mapGet_mapSet_self {α : Type} (l : List (String × α)) (k : String) (v : α) :
    mapGet (mapSet l k v) k = some v := by
  induction l with
  | nil => simp [mapGet, mapSet]
  | cons p rest ih =>
      by_cases h : p.1 = k
      · simp [mapGet, mapSet, h]
      · simp [mapGet, mapSet, h, ih]

theorem mapGet_filter_of_mapGet {α : Type} {l : List (String × α)} {k : String}
    {v : α} {p : String × α → Bool} (hget : mapGet l k = some v)
    (hp : p (k, v) = true) : mapGet (l.filter p) k = some v := by
  induction l with
  | nil => simp [mapGet] at hget
  | cons q rest ih =>
      obtain ⟨k₁, v₁⟩ := q
      by_cases h : k₁ = k
      · subst h
        simp only [mapGet, if_pos rfl, if_true, Option.some.injEq] at hget
        subst hget
        simp [List.filter_cons, hp, mapGet]
      · simp only [mapGet, if_neg h] at hget
        simp only [List.filter_cons]
        split_ifs with hb
        · simp [mapGet, h, ih hget]
        · exact ih hget

theorem mapGet_eq_none_of_not_mem {α : Type} {l : List (String × α)} {k : String}
    (h : k ∉ l.map Prod.fst) : mapGet l k = none := by
  induction l with
  | nil => rfl
  | cons q rest ih =>
      simp only [List.map_cons, List.mem_cons] at h
      push_neg at h
      have h1 : ¬ q.1 = k := fun hq => h.1 hq.symm
      simp [mapGet, h1, ih h.2]

/-- A live entry (resetTime at or after the clock) survives the cleanup
sweep of the rate limiter. -/
theorem mapGet_cleanup_live {store : RLStore} {id : String} {e : RLEntry}
    {now : Nat} (hget : mapGet store id = some e) (hlive : now ≤ e.resetTime) :
    mapGet (rlCleanup now store) id = some e := by
  apply mapGet_filter_of_mapGet hget
  simp [Nat.not_lt.mpr hlive]

/-- An expired entry is removed by the cleanup sweep: on a map with unique
keys, no entry for that key remains. -/
theorem mapGet_cleanup_none {store : RLStore} {id : String} {e : RLEntry}
    {now : Nat} (hnd : (store.map Prod.fst).Nodup) (hget : mapGet store id = some e)
    (hexp : e.resetTime < now) : mapGet (rlCleanup now store) id = none := by
  induction store with
  | nil => simp [mapGet] at hget
  | cons q rest ih =>
      obtain ⟨k₁, v₁⟩ := q
      simp only [List.map_cons, List.nodup_cons] at hnd
      by_cases h : k₁ = id
      · subst h
        simp only [mapGet, if_pos rfl, if_true, Option.some.injEq] at hget
        subst hget
        have hdrop : rlCleanup now ((k₁, v₁) :: rest) = rlCleanup now rest := by
          simp [rlCleanup, List.filter_cons, hexp]
        rw [hdrop]
        apply mapGet_eq_none_of_not_mem
        intro hmem
        simp only [rlCleanup] at hmem
        exact hnd.1 (((List.filter_sublist rest).map Prod.fst).subset hmem)
      · simp only [mapGet, if_neg h] at hget
        have hrest := ih hnd.2 hget
        simp only [rlCleanup, List.filter_cons]
        split_ifs with hb
        · simp only [mapGet, if_neg h]
          simpa [rlCleanup] using hrest
        · simpa [rlCleanup] using hrest

/-! Step lemmas for the rate limiter. -/

theorem rateLimit_eq_create {id : String} {limit now : Nat} {store : RLStore}
    (h : mapGet (rlCleanup now store) id = none) :
    rateLimit id limit now store =
      (⟨true, some ((limit : Int) - 1), none, none⟩,
       mapSet (rlCleanup now store) id ⟨1, now + RATE_LIMIT_WINDOW⟩) := by
  simp [rateLimit, h]

theorem rateLimit_eq_reject {id : String} {limit now : Nat} {store : RLStore}
    {e : RLEntry} (h : mapGet (rlCleanup now store) id = some e)
    (hc : limit ≤ e.count) :
    rateLimit id limit now store =
      (⟨false, none, some "Rate limit exceeded", some e.resetTime⟩,
       rlCleanup now store) := by
  simp [rateLimit, h, hc]

theorem rateLimit_eq_incr {id : String} {limit now : Nat} {store : RLStore}
    {e : RLEntry} (h : mapGet (rlCleanup now store) id = some e)
    (hc : e.count < limit) :
    rateLimit id limit now store =
      (⟨true, some ((limit : Int) - ((e.count : Int) + 1)), none, none⟩,
       mapSet (rlCleanup now store) id ⟨e.count + 1, e.resetTime⟩) := by
  simp [rateLimit, h, Nat.not_le.mpr hc]

theorem rlCleanup_singleton_live (id : String) (c reset t : Nat) (ht : t ≤ reset) :
    rlCleanup t [(id, (⟨c, reset⟩ : RLEntry))] = [(id, ⟨c, reset⟩)] := by
  simp [rlCleanup, List.filter_cons, Nat.not_lt.mpr ht]

theorem rateLimit_singleton_reject (id : String) (limit c reset t : Nat)
    (ht : t ≤ reset) (hc : limit ≤ c) :
    rateLimit id limit t [(id, ⟨c, reset⟩)] =
      (⟨false, none, some "Rate limit exceeded", some reset⟩,
       [(id, ⟨c, reset⟩)]) := by
  have h : mapGet (rlCleanup t [(id, (⟨c, reset⟩ : RLEntry))]) id =
      some ⟨c, reset⟩ := by
    rw [rlCleanup_singleton_live id c reset t ht]
    simp [mapGet]
  rw [rateLimit_eq_reject h hc, rlCleanup_singleton_live id c reset t ht]

theorem rateLimit_singleton_incr (id : String) (limit c reset t : Nat)
    (ht : t ≤ reset) (hc : c < limit) :
    rateLimit id limit t [(id, ⟨c, reset⟩)] =
      (⟨true, some ((limit : Int) - ((c : Int) + 1)), none, none⟩,
       [(id, ⟨c + 1, reset⟩)]) := by
  have h : mapGet (rlCleanup t [(id, (⟨c, reset⟩ : RLEntry))]) id =
      some ⟨c, reset⟩ := by
    rw [rlCleanup_singleton_live id c reset t ht]
    simp [mapGet]
  rw [rateLimit_eq_incr h hc, rlCleanup_singleton_live id c reset t ht]
  simp [mapSet]

/-- Invariant run lemma: against a single live window holding count c, a
run of calls at clock readings at or before the reset instant produces the
closed-form result list, and the final count is capped at the limit. -/
theorem runCalls_singleton (id : String) (limit reset : Nat) :
    ∀ (ts : List Nat) (c : Nat), 1 ≤ c → c ≤ limit → (∀ t ∈ ts, t ≤ reset) →
    runCalls id limit ts [(id, ⟨c, reset⟩)] =
      (rlExpected limit c reset ts.length,
       [(id, ⟨min (c + ts.length) limit, reset⟩)]) := by
  intro ts
  induction ts with
  | nil =>
      intro c h1 h2 _
      simp [runCalls, rlExpected, Nat.min_eq_left h2]
  | cons t rest ih =>
      intro c h1 h2 hts
      have ht : t ≤ reset := hts t (List.mem_cons_self t rest)
      have hrest : ∀ u ∈ rest, u ≤ reset := fun u hu => hts u (List.mem_cons_of_mem t hu)
      by_cases hc : c < limit
      · have hstep := rateLimit_singleton_incr id limit c reset t ht hc
        have harith : c + 1 + rest.length = c + (rest.length + 1) := by omega
        simp only [runCalls, hstep, ih (c + 1) (by omega) (by omega) hrest,
          List.length_cons, rlExpected, if_pos hc, harith]
      · have hc2 : limit ≤ c := Nat.not_lt.mp hc
        have hstep := rateLimit_singleton_reject id limit c reset t ht hc2
        have harith : min (c + rest.length) limit = min (c + (rest.length + 1)) limit := by
          omega
        simp only [runCalls, hstep, ih c h1 h2 hrest, List.length_cons, rlExpected,
          if_neg hc, harith]

theorem rlExpected_length (limit reset : Nat) :
    ∀ (n c : Nat), (rlExpected limit c reset n).length = n := by
  intro n
  induction n with
  | zero => intro c; rfl
  | succ m ih =>
      intro c
      by_cases hc : c < limit <;> simp [rlExpected, hc, ih]

theorem rlExpected_countP (limit reset : Nat) :
    ∀ (n c : Nat), c ≤ limit →
    (rlExpected limit c reset n).countP (fun r => r.success) = min n (limit - c) := by
  intro n
  induction n with
  | zero => intro c _; simp [rlExpected]
  | succ m ih =>
      intro c hc
      by_cases h : c < limit
      · simp only [rlExpected, if_pos h, List.countP_cons, ih (c + 1) (by omega)]
        simp
        omega
      · simp only [rlExpected, if_neg h, List.countP_cons, ih c hc]
        simp
        omega

theorem rlExpected_get_success (limit reset : Nat) :
    ∀ (n c i : Nat) (r : RLResult), i < limit - c →
    (rlExpected limit c reset n).get? i = some r → r.success = true := by
  intro n
  induction n with
  | zero => intro c i r _ h; simp [rlExpected] at h
  | succ m ih =>
      intro c i r hi h
      have hc : c < limit := by omega
      simp only [rlExpected, if_pos hc] at h
      cases i with
      | zero =>
          simp only [List.get?_cons_zero, Option.some.injEq] at h
          rw [← h]
      | succ j =>
          simp only [List.get?_cons_succ] at h
          exact ih (c + 1) j r (by omega) h

theorem rlExpected_get_fail (limit reset : Nat) :
    ∀ (n c i : Nat) (r : RLResult), limit - c ≤ i →
    (rlExpected limit c reset n).get? i = some r →
    r = ⟨false, none, some "Rate limit exceeded", some reset⟩ := by
  intro n
  induction n with
  | zero => intro c i r _ h; simp [rlExpected] at h
  | succ m ih =>
      intro c i r hi h
      by_cases hc : c < limit
      · simp only [rlExpected, if_pos hc] at h
        cases i with
        | zero => omega
        | succ j =>
            simp only [List.get?_cons_succ] at h
            exact ih (c + 1) j r (by omega) h
      · simp only [rlExpected, if_neg hc] at h
        cases i with
        | zero =>
            simp only [List.get?_cons_zero, Option.some.injEq] at h
            exact h.symm
        | succ j =>
            simp only [List.get?_cons_succ] at h
            exact ih c j r (by omega) h

/-- A run that starts on an empty store creates the window with the first
call and then runs against that single live window. -/
theorem runCalls_from_empty (id : String) (limit now : Nat) (rest : List Nat)
    (hlim : 1 ≤ limit) (hrest : ∀ t ∈ rest, t ≤ now + RATE_LIMIT_WINDOW) :
    (runCalls id limit (now :: rest) []).1 =
      ⟨true, some ((limit : Int) - 1), none, none⟩ ::
        rlExpected limit 1 (now + RATE_LIMIT_WINDOW) rest.length := by
  have hcreate : rateLimit id limit now ([] : RLStore) =
      (⟨true, some ((limit : Int) - 1), none, none⟩,
       mapSet (rlCleanup now []) id ⟨1, now + RATE_LIMIT_WINDOW⟩) :=
    rateLimit_eq_create rfl
  have hrun := runCalls_singleton id limit (now + RATE_LIMIT_WINDOW) rest 1
    (le_refl 1) hlim hrest
  simp only [runCalls, hcreate, rlCleanup, List.filter_nil, mapSet, hrun]

/-! Theorems settling the claims about the rate limiter. -/

/-- C1 (amended): the rateLimit function implements fixed-window counting.
With no live window after cleanup, a call creates a window with count 1 and
is allowed with remaining equal to the limit minus one; with a live window
holding a count below the limit it increments and is allowed with remaining
equal to the limit minus the new count; a call on a full window is rejected
with resetAt equal to the creation instant plus the window length but with
no remaining value in the result (the claimed remaining of zero is absent
from the returned object). In particular, of limit plus one calls inside
one window starting from an empty store, the first limit calls are allowed
and the last is rejected, again with no remaining value. -/
theorem rateLimit_fixed_window_amended (id : String) (limit now : Nat)
    (store : RLStore) :
    (mapGet (rlCleanup now store) id = none →
      (rateLimit id limit now store).1 = ⟨true, some ((limit : Int) - 1), none, none⟩ ∧
      mapGet (rateLimit id limit now store).2 id = some ⟨1, now + RATE_LIMIT_WINDOW⟩) ∧
    (∀ e : RLEntry, mapGet (rlCleanup now store) id = some e → e.count < limit →
      (rateLimit id limit now store).1 =
        ⟨true, some ((limit : Int) - ((e.count : Int) + 1)), none, none⟩ ∧
      mapGet (rateLimit id limit now store).2 id = some ⟨e.count + 1, e.resetTime⟩) ∧
    (∀ e : RLEntry, mapGet (rlCleanup now store) id = some e → limit ≤ e.count →
      (rateLimit id limit now store).1 =
        ⟨false, none, some "Rate limit exceeded", some e.resetTime⟩) ∧
    (1 ≤ limit → ∀ rest : List Nat, rest.length = limit →
      (∀ t ∈ rest, t ≤ now + RATE_LIMIT_WINDOW) →
      (∀ i r, i < limit → ((runCalls id limit (now :: rest) []).1).get? i = some r →
        r.success = true) ∧
      ((runCalls id limit (now :: rest) []).1).get? limit =
        some ⟨false, none, some "Rate limit exceeded", some (now + RATE_LIMIT_WINDOW)⟩) := by
  refine ⟨?_, ?_, ?_, ?_⟩
  · intro h
    rw [rateLimit_eq_create h]
    exact ⟨rfl, mapGet_mapSet_self _ _ _⟩
  · intro e he hc
    rw [rateLimit_eq_incr he hc]
    exact ⟨rfl, mapGet_mapSet_self _ _ _⟩
  · intro e he hc
    rw [rateLimit_eq_reject he hc]
  · intro hlim rest hlen hrest
    have hfull := runCalls_from_empty id limit now rest hlim hrest
    constructor
    · intro i r hi hget
      rw [hfull] at hget
      cases i with
      | zero =>
          simp only [List.get?_cons_zero, Option.some.injEq] at hget
          rw [← hget]
      | succ j =>
          simp only [List.get?_cons_succ] at hget
          exact rlExpected_get_success limit (now + RATE_LIMIT_WINDOW) rest.length 1 j r
            (by omega) hget
    · obtain ⟨m, rfl⟩ : ∃ m, limit = m + 1 := ⟨limit - 1, by omega⟩
      rw [hfull]
      simp only [List.get?_cons_succ]
      have hmlen : m < (rlExpected (m + 1) 1 (now + RATE_LIMIT_WINDOW) rest.length).length := by
        rw [rlExpected_length]
        omega
      have hsome := List.get?_eq_get hmlen
      rw [hsome]
      have hfail := rlExpected_get_fail (m + 1) (now + RATE_LIMIT_WINDOW) rest.length 1 m
        ((rlExpected (m + 1) 1 (now + RATE_LIMIT_WINDOW) rest.length).get ⟨m, hmlen⟩)
        (by omega) hsome
      rw [hfail]

/-- C1 counterexample to the claim as stated: with a limit of two, the
third call in one window is rejected, but the returned object carries no
remaining field at all (value none), not remaining zero. -/
theorem rateLimit_rejected_remaining_counterexample :
    ((runCalls "k" 2 [0, 0, 0] []).1.get? 2).map (fun r => (r.success, r.remaining)) =
      some (false, none) ∧
    some (false, (none : Option Int)) ≠ some (false, some (0 : Int)) := by
  constructor
  · decide
  · decide

/-- C1 witness: the amended theorem evaluated at a concrete window of
limit two. -/
theorem rateLimit_fixed_window_amended_witness :
    (rateLimit "k" 2 0 []).1 = ⟨true, some 1, none, none⟩ ∧
    ((runCalls "k" 2 [0, 0, 0] []).1).get? 2 =
      some ⟨false, none, some "Rate limit exceeded", some (0 + RATE_LIMIT_WINDOW)⟩ := by
  have h := rateLimit_fixed_window_amended "k" 2 0 []
  exact ⟨(h.1 (by decide)).1, (h.2.2.2 (by decide) [0, 0] (by decide) (by decide)).2⟩

/-- C6 (amended): an entry whose resetTime is strictly before the clock is
expired; the call then replaces the window with a fresh one of count 1 and
is allowed with remaining equal to the limit minus one, whatever count the
old window had reached. -/
theorem rateLimit_expired_window_replaced (id : String) (limit now : Nat)
    (store : RLStore) (e : RLEntry) (hnd : (store.map Prod.fst).Nodup)
    (hget : mapGet store id = some e) (hexp : e.resetTime < now) :
    (rateLimit id limit now store).1 = ⟨true, some ((limit : Int) - 1), none, none⟩ ∧
    mapGet (rateLimit id limit now store).2 id = some ⟨1, now + RATE_LIMIT_WINDOW⟩ := by
  have h := mapGet_cleanup_none hnd hget hexp
  rw [rateLimit_eq_create h]
  exact ⟨rfl, mapGet_mapSet_self _ _ _⟩

/-- C6 counterexample to the claim as stated: at the exact instant
windowStart plus windowLength (resetTime 100, clock 100) the code still
treats the window as live and rejects a full window instead of creating a
fresh one. -/
theorem rateLimit_expiry_boundary_counterexample :
    (rateLimit "k" 2 100 [("k", ⟨2, 100⟩)]).1 =
      ⟨false, none, some "Rate limit exceeded", some 100⟩ ∧
    mapGet (rateLimit "k" 2 100 [("k", ⟨2, 100⟩)]).2 "k" = some ⟨2, 100⟩ := by
  constructor
  · decide
  · decide

/-- C6 witness: the amended theorem at a concrete expired full window. -/
theorem rateLimit_expired_window_replaced_witness :
    ([("k", (⟨7, 5⟩ : RLEntry))].map Prod.fst).Nodup ∧
    mapGet [("k", (⟨7, 5⟩ : RLEntry))] "k" = some ⟨7, 5⟩ ∧ (5 : Nat) < 6 ∧
    ((rateLimit "k" 2 6 [("k", ⟨7, 5⟩)]).1 = ⟨true, some 1, none, none⟩ ∧
     mapGet (rateLimit "k" 2 6 [("k", ⟨7, 5⟩)]).2 "k" = some ⟨1, 6 + RATE_LIMIT_WINDOW⟩) :=
  ⟨by decide, by decide, by decide,
   rateLimit_expired_window_replaced "k" 2 6 [("k", ⟨7, 5⟩)] ⟨7, 5⟩
     (by decide) (by decide) (by decide)⟩

/-- C9: any number of calls fired at one instant for the same identifier,
starting from an empty store, admits at most limit of them. Each rateLimit
call is a single synchronous map operation (JavaScript run-to-completion),
so concurrent checks interleave as some sequential order, which this

theorem bounds for every order of equal-time calls. -/
theorem rateLimit_no_overadmission (id : String) (limit now : Nat)
    (ts : List Nat) (hsim : ∀ t ∈ ts, t = now) (hlim : 1 ≤ limit) :
    ((runCalls id limit ts []).1).countP (fun r => r.success) ≤ limit := by
  cases ts with
  | nil => simp [runCalls]
  | cons t rest =>
      have ht : t = now := hsim t (List.mem_cons_self t rest)
      subst ht
      have hrest : ∀ u ∈ rest, u ≤ t + RATE_LIMIT_WINDOW := by
        intro u hu
        have := hsim u (List.mem_cons_of_mem t hu)
        omega
      rw [runCalls_from_empty id limit t rest hlim hrest]
      rw [List.countP_cons]
      rw [rlExpected_countP limit (t + RATE_LIMIT_WINDOW) rest.length 1 hlim]
      simp
      omega

/-- C9 witness: three simultaneous calls with a limit of two admit at most
two. -/
theorem rateLimit_no_overadmission_witness :
    (∀ t ∈ [0, 0, 0], t = 0) ∧ 1 ≤ 2 ∧
    ((runCalls "k" 2 [0, 0, 0] []).1).countP (fun r => r.success) ≤ 2 :=
  ⟨by decide, by decide, rateLimit_no_overadmission "k" 2 0 [0, 0, 0] (by decide) (by decide)⟩

/-- C10: a rejected check leaves the entry for that identifier unchanged:
when the live window is full, the call fails and the stored count and
resetTime afterwards equal their values before the call. -/
theorem rateLimit_rejection_frame (id : String) (limit now : Nat)
    (store : RLStore) (e : RLEntry) (hget : mapGet store id = some e)
    (hlive : now ≤ e.resetTime) (hfull : limit ≤ e.count) :
    (rateLimit id limit now store).1 =
      ⟨false, none, some "Rate limit exceeded", some e.resetTime⟩ ∧
    mapGet (rateLimit id limit now store).2 id = some e := by
  have h := mapGet_cleanup_live hget hlive
  rw [rateLimit_eq_reject h hfull]
  exact ⟨rfl, h⟩

/-- C10 witness: a rejected call on a concrete full window keeps the entry
byte-for-byte. -/
theorem rateLimit_rejection_frame_witness :
    mapGet [("k", (⟨2, 100⟩ : RLEntry))] "k" = some ⟨2, 100⟩ ∧ (50 : Nat) ≤ 100 ∧
    (2 : Nat) ≤ 2 ∧
    ((rateLimit "k" 2 50 [("k", ⟨2, 100⟩)]).1 =
       ⟨false, none, some "Rate limit exceeded", some 100⟩ ∧
     mapGet (rateLimit "k" 2 50 [("k", ⟨2, 100⟩)]).2 "k" = some ⟨2, 100⟩) :=
  ⟨by decide, by decide, by decide,
   rateLimit_rejection_frame "k" 2 50 [("k", ⟨2, 100⟩)] ⟨2, 100⟩
     (by decide) (by decide) (by decide)⟩

/-! Theorems about client identity resolution. -/

theorem getD_ne_of_jsTruthy {s : Option String} (h : jsTruthy s = true) :
    s.getD "" ≠ "" := by
  cases s with
  | none => simp [jsTruthy] at h
  | some v => simpa [jsTruthy] using h

/-- C7 (amended): client identity resolution always returns a string and
follows the precedence forwarded-for first entry trimmed, then real-IP,
then the transport source address, then the literal unknown. Whenever the
forwarded-for header is not consulted the result is non-empty; when it is
consulted the result is the trimmed first comma-separated entry, which is
the empty string exactly when that entry trims to nothing. -/
theorem getClientIP_precedence (f r ip ra : Option String) :
    (jsTruthy f = true →
      getClientIP f r ip ra = ⟨trimChars ((splitComma (f.getD "").data).headD [])⟩) ∧
    (jsTruthy f = false → jsTruthy r = true → getClientIP f r ip ra = r.getD "") ∧
    (jsTruthy f = false → jsTruthy r = false → jsTruthy ip = true →
      getClientIP f r ip ra = ip.getD "") ∧
    (jsTruthy f = false → jsTruthy r = false → jsTruthy ip = false →
      jsTruthy ra = true → getClientIP f r ip ra = ra.getD "") ∧
    (jsTruthy f = false → jsTruthy r = false → jsTruthy ip = false →
      jsTruthy ra = false → getClientIP f r ip ra = "unknown") ∧
    (jsTruthy f = false → getClientIP f r ip ra ≠ "") := by
  refine ⟨?_, ?_, ?_, ?_, ?_, ?_⟩
  · intro hf
    simp [getClientIP, hf]
  · intro hf hr
    simp [getClientIP, hf, hr]
  · intro hf hr hip
    simp [getClientIP, hf, hr, hip]
  · intro hf hr hip hra
    simp [getClientIP, hf, hr, hip, hra]
  · intro hf hr hip hra
    simp [getClientIP, hf, hr, hip, hra]
  · intro hf
    rcases hr : jsTruthy r with _ | _
    · rcases hip : jsTruthy ip with _ | _
      · rcases hra : jsTruthy ra with _ | _
        · simp [getClientIP, hf, hr, hip, hra]
        · simp [getClientIP, hf, hr, hip, hra, getD_ne_of_jsTruthy hra]
      · simp [getClientIP, hf, hr, hip, getD_ne_of_jsTruthy hip]
    · simp [getClientIP, hf, hr, getD_ne_of_jsTruthy hr]

/-- C7 counterexample to the claim as stated: a forwarded-for header
holding a single space is truthy, yet its first comma-separated entry trims
to the empty string, so resolution returns the empty string, not a
non-empty one. -/
theorem getClientIP_empty_result_counterexample :
    getClientIP (some " ") none none none = "" ∧ jsTruthy (some " ") = true := by
  constructor
  · decide
  · decide

/-- C7 witness: the amended theorem at a concrete forwarded header and at
a fully absent header set. -/
theorem getClientIP_precedence_witness :
    getClientIP (some "1.2.3.4, 5.6.7.8") none none none = "1.2.3.4" ∧
    getClientIP none none none none = "unknown" := by
  have h := getClientIP_precedence (some "1.2.3.4, 5.6.7.8") none none none
  have h2 := getClientIP_precedence none none none none
  constructor
  · rw [h.1 (by decide)]
    decide
  · exact h2.2.2.2.2.1 (by decide) (by decide) (by decide) (by decide)

/-! Theorems about the CSRF token manager. -/

/-- C2 (amended): validation succeeds exactly when the presenting session
resolves to a non-empty session key, a token is stored for that key, its
stored value equals the presented token, and the clock has not passed the
expiry (the token is still accepted at the exact expiry instant; only
strictly later is it rejected). Reissuing a token for a session with a
fresh value distinct from the old one makes validation of the old token
return false at every clock reading. -/
theorem validateCSRFToken_characterization (store : CSRFStore)
    (cookieA cookieB : Option String) (token : String) (now : Nat) :
    ((validateCSRFToken store cookieA cookieB token now).1 = true ↔
      ∃ s e, jsOrStr cookieA cookieB = some s ∧ s ≠ "" ∧ mapGet store s = some e ∧
        e.token = token ∧ now ≤ e.expires) ∧
    (∀ (s oldToken freshToken : String) (now₁ now₂ : Nat), freshToken ≠ oldToken →
      (validateCSRFToken (setCSRFToken store s freshToken now₁).2 (some s) none
        oldToken now₂).1 = false) := by
  constructor
  · rcases hst : jsOrStr cookieA cookieB with _ | s₀
    · simp only [validateCSRFToken, hst, jsTruthy, Bool.false_eq_true, if_false]
      constructor
      · intro h
        exact absurd h (by decide)
      · rintro ⟨s, e, hs, -⟩
        exact Option.noConfusion hs
    · by_cases hs0 : s₀ = ""
      · subst hs0
        simp only [validateCSRFToken, hst]
        constructor
        · intro h
          simp [jsTruthy] at h
        · rintro ⟨s, e, hs, hne, -⟩
          rw [Option.some.injEq] at hs
          exact (hne hs.symm).elim
      · rcases hget : mapGet store s₀ with _ | stored
        · simp only [validateCSRFToken, hst]
          constructor
          · intro h
            simp [jsTruthy, hs0, hget] at h
          · rintro ⟨s, e, hs, -, hg, -⟩
            rw [Option.some.injEq] at hs
            subst hs
            rw [hget] at hg
            exact Option.noConfusion hg
        · simp only [validateCSRFToken, hst]
          constructor
          · intro h
            refine ⟨s₀, stored, rfl, hs0, hget, ?_, ?_⟩
            · by_contra htok
              simp [jsTruthy, hs0, hget, htok] at h
            · by_contra hexp
              push_neg at hexp
              by_cases htok : stored.token = token
              · simp [jsTruthy, hs0, hget, htok, hexp] at h
              · simp [jsTruthy, hs0, hget, htok] at h
          · rintro ⟨s, e, hs, -, hg, htok, hexp⟩
            rw [Option.some.injEq] at hs
            subst hs
            rw [hget] at hg
            rw [Option.some.injEq] at hg
            subst hg
            simp [jsTruthy, hs0, hget, htok, Nat.not_lt.mpr hexp]
  · intro s oldToken freshToken now₁ now₂ hne
    by_cases hs : s = ""
    · subst hs
      simp [validateCSRFToken, jsOrStr, jsTruthy]
    · have hm : mapGet (setCSRFToken store s freshToken now₁).2 s =
          some ⟨freshToken, now₁ + 24 * 60 * 60 * 1000⟩ := by
        apply mapGet_filter_of_mapGet (mapGet_mapSet_self _ _ _)
        simp
      simp [validateCSRFToken, jsOrStr, jsTruthy, hs, hm, hne]

/-- C2 counterexample to the claim as stated: at the exact expiry instant
(stored expiry 100, clock 100) validation succeeds, although the claimed
condition now strictly before expiresAt fails. -/
theorem validateCSRFToken_expiry_boundary_counterexample :
    (validateCSRFToken [("s", ⟨"tok", 100⟩)] (some "s") none "tok" 100).1 = true ∧
    ¬ ((100 : Nat) < 100) := by
  constructor
  · decide
  · decide

/-- C2 witness: the amended characterization at a concrete store, both for
a successful round trip and for the reissue invalidation. -/
theorem validateCSRFToken_characterization_witness :
    (validateCSRFToken [("s", (⟨"old", 500⟩ : CSRFEntry))] (some "s") none
      "old" 100).1 = true ∧
    (validateCSRFToken (setCSRFToken [("s", (⟨"old", 500⟩ : CSRFEntry))] "s"
      "new" 100).2 (some "s") none "old" 100).1 = false := by
  have h := validateCSRFToken_characterization [("s", ⟨"old", 500⟩)] (some "s")
    none "old" 100
  constructor
  · exact h.1.mpr ⟨"s", ⟨"old", 500⟩, by decide, by decide, by decide, by decide,
      by decide⟩
  · exact h.2 "s" "old" "new" 100 100 (by decide)

/-- C8 (amended): the CSRF gate bypasses exactly the GET method; every
other method, the safe HEAD and OPTIONS included, is checked. A checked
request with no (or empty) token header is rejected with status 403 and the
body fields success false and error CSRF token missing; one whose header
fails validation is rejected with status 403 and error Invalid CSRF token;
one whose header validates runs the wrapped handler. -/
theorem withCSRFProtection_gate (store : CSRFStore)
    (cookieA cookieB : Option String) (method : String)
    (headerToken : Option String) (now : Nat) :
    (method = "GET" →
      withCSRFProtection store cookieA cookieB method headerToken now = .forwarded) ∧
    (method ≠ "GET" → jsTruthy headerToken = false →
      withCSRFProtection store cookieA cookieB method headerToken now =
        .rejected 403 false "CSRF token missing") ∧
    (method ≠ "GET" → jsTruthy headerToken = true →
      (validateCSRFToken store cookieA cookieB (headerToken.getD "") now).1 = false →
      withCSRFProtection store cookieA cookieB method headerToken now =
        .rejected 403 false "Invalid CSRF token") ∧
    (method ≠ "GET" → jsTruthy headerToken = true →
      (validateCSRFToken store cookieA cookieB (headerToken.getD "") now).1 = true →
      withCSRFProtection store cookieA cookieB method headerToken now = .forwarded) := by
  refine ⟨?_, ?_, ?_, ?_⟩
  · intro h
    simp [withCSRFProtection, h]
  · intro h1 h2
    simp [withCSRFProtection, h1, h2]
  · intro h1 h2 h3
    simp [withCSRFProtection, h1, h2, h3]
  · intro h1 h2 h3
    simp [withCSRFProtection, h1, h2, h3]

/-- C8 counterexample to the claim as stated: HEAD is a safe, read-only
method, yet the gate does not bypass it; with no token header a HEAD
request is rejected with 403 rather than forwarded to the handler. -/
theorem withCSRFProtection_safe_method_counterexample :
    withCSRFProtection [] none none "HEAD" none 0 =
      .rejected 403 false "CSRF token missing" ∧
    "HEAD" ≠ "GET" := by
  constructor
  · decide
  · decide

/-- C8 witness: the amended gate at concrete GET and POST requests. -/
theorem withCSRFProtection_gate_witness :
    withCSRFProtection [] none none "GET" none 0 = .forwarded ∧
    withCSRFProtection [] none none "POST" none 0 =
      .rejected 403 false "CSRF token missing" := by
  have h := withCSRFProtection_gate [] none none "GET" none 0
  have h2 := withCSRFProtection_gate [] none none "POST" none 0
  exact ⟨h.1 rfl, h2.2.1 (by decide) (by decide)⟩

/-! Theorems about the middleware routing and session gate. -/

/-- A pathname under the administrative prefix is never under the API
prefix: the third characters of the two prefixes differ. -/
theorem not_api_of_admin {p : String} (h : strStartsWith p "/admin" = true) :
    strStartsWith p "/api" = false := by
  obtain ⟨l⟩ := p
  simp only [strStartsWith] at *
  rcases l with _ | ⟨c1, _ | ⟨c2, _ | ⟨c3, rest⟩⟩⟩
  · simp [List.isPrefixOf] at h
  · simp [List.isPrefixOf] at h
  · simp [List.isPrefixOf] at h
  · simp only [List.isPrefixOf, Bool.and_eq_true, beq_iff_eq] at h ⊢
    obtain ⟨h1, h2, h3, -⟩ := h
    subst h1
    subst h2
    subst h3
    simp [List.isPrefixOf]

/-- C3 (amended): on a path under the administrative prefix other than the
login route, a request with no session credential is redirected to the
login path with the original path as callbackUrl; one whose credential
carries a nonzero numeric expiry strictly earlier than now is redirected
with the additional error session_expired; one whose credential has no
expiry claim, a zero expiry, or an expiry at or after now is forwarded with
the validated session attached, carrying the security headers. The login
route itself is forwarded without any credential check, so it stays
reachable while unauthenticated. -/
theorem middleware_admin_gate (pathname ip : String) (nowMs : Nat)
    (token : Option JWTToken) (store : RLStore)
    (hA : strStartsWith pathname "/admin" = true) :
    (pathname ≠ "/admin/login" → token = none →
      middleware pathname ip nowMs token store =
        (.redirectLogin pathname none [], store)) ∧
    (∀ t e, pathname ≠ "/admin/login" → token = some t → t.exp = some e →
      e ≠ 0 → 1000 * e < nowMs →
      middleware pathname ip nowMs token store =
        (.redirectLogin pathname (some "session_expired") [], store)) ∧
    (∀ t, pathname ≠ "/admin/login" → token = some t →
      (t.exp = none ∨ t.exp = some 0 ∨ ∃ e, t.exp = some e ∧ nowMs ≤ 1000 * e) →
      middleware pathname ip nowMs token store =
        (.next securityHeaders (some t), store)) ∧
    (pathname = "/admin/login" →
      middleware pathname ip nowMs token store =
        (.next securityHeaders none, store)) := by
  have hapi := not_api_of_admin hA
  refine ⟨?_, ?_, ?_, ?_⟩
  · intro hne htok
    simp [middleware, hA, hapi, hne, htok]
  · intro t e hne htok hexp he0 hlt
    simp [middleware, hA, hapi, hne, htok, hexp, he0, hlt]
  · intro t hne htok hcase
    rcases hcase with hnone | hzero | ⟨e, hexp, hle⟩
    · simp [middleware, hA, hapi, hne, htok, hnone]
    · simp [middleware, hA, hapi, hne, htok, hzero]
    · simp [middleware, hA, hapi, hne, htok, hexp, Nat.not_lt.mpr hle]
  · intro hlogin
    subst hlogin
    simp [middleware, hA, hapi]

/-- C3 counterexample to the claim as stated: a credential whose expiry is
exactly now (expiry 5 seconds, clock 5000 milliseconds) has an expiry time
that is not after now, yet the request is forwarded instead of being
redirected with error session_expired. -/
theorem middleware_admin_gate_boundary_counterexample :
    (middleware "/admin/x" "ip" 5000 (some ⟨some 5⟩) []).1 =
      .next securityHeaders (some ⟨some 5⟩) ∧
    1000 * 5 ≤ 5000 := by
  constructor
  · decide
  · decide

/-- C3 witness: the amended gate at concrete requests covering the
anonymous redirect, the expired redirect, and the reachable login route. -/
theorem middleware_admin_gate_witness :
    middleware "/admin/dash" "ip" 99 none [] =
      (.redirectLogin "/admin/dash" none [], []) ∧
    middleware "/admin/dash" "ip" 5001 (some ⟨some 5⟩) [] =
      (.redirectLogin "/admin/dash" (some "session_expired") [], []) ∧
    middleware "/admin/login" "ip" 0 none [] =
      (.next securityHeaders none, []) := by
  have h1 := middleware_admin_gate "/admin/dash" "ip" 99 none [] (by decide)
  have h2 := middleware_admin_gate "/admin/dash" "ip" 5001 (some ⟨some 5⟩) []
    (by decide)
  have h3 := middleware_admin_gate "/admin/login" "ip" 0 none [] (by decide)
  refine ⟨h1.1 (by decide) rfl, ?_, h3.2.2.2 rfl⟩
  exact h2.2.1 ⟨some 5⟩ 5 (by decide) rfl rfl (by decide) (by decide)

/-- C4: the middleware does not attach the security header set to every
outgoing response. A rate-limited API request is answered with a 429
response whose only header is Content-Type; none of the five security
headers, X-Frame-Options among them, is present, although they belong to
the fixed set attached to forwarded responses. -/
theorem middleware_rate_limited_no_security_headers :
    (middleware "/api/items" "1.1.1.1" 0 none [("api:1.1.1.1", ⟨100, 50⟩)]).1 =
      .limited 429 [("Content-Type", "application/json")] ∧
    ("X-Frame-Options", "DENY") ∉
      outcomeHeaders
        (middleware "/api/items" "1.1.1.1" 0 none [("api:1.1.1.1", ⟨100, 50⟩)]).1 ∧
    ("X-Frame-Options", "DENY") ∈ securityHeaders ∧
    outcomeHeaders (middleware "/admin/login" "ip" 0 none []).1 = securityHeaders ∧
    outcomeHeaders (middleware "/admin/x" "ip" 0 none []).1 = [] := by
  refine ⟨by decide, by decide, by decide, by decide, by decide⟩

/-! Theorems about configuration validation. -/

theorem mem_requiredErrors {env : Env} {x : String} (h : x ∈ requiredErrors env) :
    x = "Missing required environment variable: DATABASE_URL" ∨
    x = "Missing required environment variable: NEXTAUTH_URL" ∨
    x = "Missing required environment variable: NEXTAUTH_SECRET" ∨
    x = "Missing required environment variable: NODE_ENV" := by
  simp only [requiredErrors, List.mem_append] at h
  split_ifs at h <;> simp_all <;> tauto

theorem mem_recommendedWarnings {env : Env} {w : String}
    (h : w ∈ recommendedWarnings env) :
    w = "Missing recommended environment variable: REDIS_URL" ∨
    w = "Missing recommended environment variable: GOOGLE_ANALYTICS_ID" ∨
    w = "Missing recommended environment variable: FACEBOOK_PIXEL_ID" := by
  simp only [recommendedWarnings, List.mem_append] at h
  split_ifs at h <;> simp_all <;> tauto

theorem mem_dbErrors {env : Env} {x : String} (h : x ∈ dbErrors env) :
    x = "DATABASE_URL is not a valid URL" ∨
    x = "DATABASE_URL must use postgresql:// protocol" := by
  simp only [dbErrors] at h
  split at h
  · split at h
    · simp_all
    · split_ifs at h <;> simp_all
  · simp at h

theorem mem_dbWarnings {env : Env} {w : String} (h : w ∈ dbWarnings env) :
    w = "DATABASE_URL should not use localhost in production" ∧
    env.NODE_ENV = some "production" := by
  simp only [dbWarnings] at h
  split at h
  · split at h
    · simp at h
    · split_ifs at h with h2
      · simp only [List.mem_singleton] at h
        exact ⟨h, h2.2⟩
      · simp at h
  · simp at h

theorem mem_authUrlErrors {env : Env} {x : String} (h : x ∈ authUrlErrors env) :
    x = "NEXTAUTH_URL is not a valid URL" ∨
    x = "NEXTAUTH_URL must use http:// or https:// protocol" ∨
    (x = "NEXTAUTH_URL must use https:// in production" ∧
      env.NODE_ENV = some "production") := by
  simp only [authUrlErrors] at h
  split at h
  · split at h
    · simp_all
    · simp only [List.mem_append] at h
      rcases h with h | h
      · split_ifs at h <;> simp_all
      · split_ifs at h with h2
        · simp only [List.mem_singleton] at h
          exact Or.inr (Or.inr ⟨h, h2.1⟩)
        · simp at h
  · simp at h

theorem mem_secretErrors {env : Env} {x : String} (h : x ∈ secretErrors env) :
    x = "NEXTAUTH_SECRET must be at least 32 characters long" ∨
    x = "NEXTAUTH_SECRET appears to be weak or default" := by
  simp only [secretErrors, List.mem_append] at h
  split_ifs at h <;> simp_all

theorem mem_nodeEnvErrors {env : Env} {x : String} (h : x ∈ nodeEnvErrors env) :
    x = "NODE_ENV must be one of: development, production, test" := by
  simp only [nodeEnvErrors] at h
  split_ifs at h <;> simp_all

/-- C5 (amended): the configuration validator yields a valid flag with
error and warning lists. It rejects signing secrets shorter than 32
characters and secrets matching the weak patterns (repeated characters or
default placeholder prefixes); it rejects connection strings whose scheme
is not postgresql; it rejects a non-https base URL when the environment
tag is production, while under development the same value is accepted with
no error and no warning (the warnings list can only ever name missing
recommended variables under a development tag); a configuration with a
32-character random secret is accepted. -/
theorem validateEnvironmentVariables_checks (env : Env) :
    (∀ s, env.NEXTAUTH_SECRET = some s → s ≠ "" → s.length < 32 →
      "NEXTAUTH_SECRET must be at least 32 characters long" ∈
        (validateEnvironmentVariables env).errors ∧
      (validateEnvironmentVariables env).valid = false) ∧
    (∀ s, env.NEXTAUTH_SECRET = some s → s ≠ "" → weakSecretPattern s = true →
      "NEXTAUTH_SECRET appears to be weak or default" ∈
        (validateEnvironmentVariables env).errors ∧
      (validateEnvironmentVariables env).valid = false) ∧
    (∀ u p, env.DATABASE_URL = some u → u ≠ "" → parseURL u = some p →
      p.protocol ≠ "postgresql:" →
      "DATABASE_URL must use postgresql:// protocol" ∈
        (validateEnvironmentVariables env).errors ∧
      (validateEnvironmentVariables env).valid = false) ∧
    (∀ u p, env.NODE_ENV = some "production" → env.NEXTAUTH_URL = some u →
      u ≠ "" → parseURL u = some p → p.protocol ≠ "https:" →
      "NEXTAUTH_URL must use https:// in production" ∈
        (validateEnvironmentVariables env).errors ∧
      (validateEnvironmentVariables env).valid = false) ∧
    (env.NODE_ENV = some "development" →
      "NEXTAUTH_URL must use https:// in production" ∉
        (validateEnvironmentVariables env).errors ∧
      ∀ w ∈ (validateEnvironmentVariables env).warnings,
        w = "Missing recommended environment variable: REDIS_URL" ∨
        w = "Missing recommended environment variable: GOOGLE_ANALYTICS_ID" ∨
        w = "Missing recommended environment variable: FACEBOOK_PIXEL_ID") ∧
    validateEnvironmentVariables
      ⟨some "postgresql://db.example.com/app", some "https://example.com",
       some "Xk7QpW3nRv9TzUb5Ym2Jd8Hf4Lc6Sg1A", some "production",
       some "redis://r", some "G-1", some "FB-1"⟩ = ⟨true, [], []⟩ := by
  have herr : (validateEnvironmentVariables env).errors =
      requiredErrors env ++ dbErrors env ++ authUrlErrors env ++
        secretErrors env ++ nodeEnvErrors env := rfl
  have hv : (validateEnvironmentVariables env).valid =
      (validateEnvironmentVariables env).errors.isEmpty := rfl
  have hwarn : (validateEnvironmentVariables env).warnings =
      recommendedWarnings env ++ dbWarnings env := rfl
  refine ⟨?_, ?_, ?_, ?_, ?_, by decide⟩
  · intro s hsec hne hlen
    have hx : "NEXTAUTH_SECRET must be at least 32 characters long" ∈
        secretErrors env := by
      simp [secretErrors, hsec, jsTruthy, hne, hlen]
    have hmem : "NEXTAUTH_SECRET must be at least 32 characters long" ∈
        (validateEnvironmentVariables env).errors := by
      rw [herr]
      exact List.mem_append_left _ (List.mem_append_right _ hx)
    exact ⟨hmem, by rw [hv]; exact isEmpty_false_of_mem hmem⟩
  · intro s hsec hne hweak
    have hx : "NEXTAUTH_SECRET appears to be weak or default" ∈
        secretErrors env := by
      simp [secretErrors, hsec, jsTruthy, hne, hweak]
    have hmem : "NEXTAUTH_SECRET appears to be weak or default" ∈
        (validateEnvironmentVariables env).errors := by
      rw [herr]
      exact List.mem_append_left _ (List.mem_append_right _ hx)
    exact ⟨hmem, by rw [hv]; exact isEmpty_false_of_mem hmem⟩
  · intro u p hdb hne hp hproto
    have hx : "DATABASE_URL must use postgresql:// protocol" ∈ dbErrors env := by
      simp [dbErrors, hdb, jsTruthy, hne, hp, hproto]
    have hmem : "DATABASE_URL must use postgresql:// protocol" ∈
        (validateEnvironmentVariables env).errors := by
      rw [herr]
      exact List.mem_append_left _ (List.mem_append_left _
        (List.mem_append_left _ (List.mem_append_right _ hx)))
    exact ⟨hmem, by rw [hv]; exact isEmpty_false_of_mem hmem⟩
  · intro u p hprod hurl hne hp hproto
    have hx : "NEXTAUTH_URL must use https:// in production" ∈
        authUrlErrors env := by
      simp [authUrlErrors, hurl, jsTruthy, hne, hp, hprod, hproto]
    have hmem : "NEXTAUTH_URL must use https:// in production" ∈
        (validateEnvironmentVariables env).errors := by
      rw [herr]
      exact List.mem_append_left _ (List.mem_append_left _
        (List.mem_append_right _ hx))
    exact ⟨hmem, by rw [hv]; exact isEmpty_false_of_mem hmem⟩
  · intro hdev
    constructor
    · intro hmem
      rw [herr] at hmem
      simp only [List.mem_append] at hmem
      rcases hmem with (((hmem | hmem) | hmem) | hmem) | hmem
      · rcases mem_requiredErrors hmem with h | h | h | h <;> simp at h
      · rcases mem_dbErrors hmem with h | h <;> simp at h
      · rcases mem_authUrlErrors hmem with h | h | ⟨-, h⟩
        · simp at h
        · simp at h
        · rw [hdev] at h
          simp at h
      · rcases mem_secretErrors hmem with h | h <;> simp at h
      · have h := mem_nodeEnvErrors hmem
        simp at h
    · intro w hw
      rw [hwarn] at hw
      rcases List.mem_append.mp hw with hw | hw
      · exact mem_recommendedWarnings hw
      · obtain ⟨-, hprod⟩ := mem_dbWarnings hw
        rw [hdev] at hprod
        simp at hprod

/-- C5 counterexample to the claim as stated: under a development tag a
non-https base URL produces no warning at all (and no error): the full
report for this configuration is valid with empty error and warning lists,
while the claim requires a warning about the non-https URL. -/
theorem validateEnvironmentVariables_dev_no_warning_counterexample :
    validateEnvironmentVariables
      ⟨some "postgresql://db.example.com/app", some "http://localhost:3000",
       some "Xk7QpW3nRv9TzUb5Ym2Jd8Hf4Lc6Sg1A", some "development",
       some "redis://r", some "G-1", some "FB-1"⟩ = ⟨true, [], []⟩ ∧
    parseURL "http://localhost:3000" = some ⟨"http:", "localhost"⟩ ∧
    "http:" ≠ "https:" := by
  refine ⟨by decide, by decide, by decide⟩

/-- C5 witness: the amended theorem at a concrete configuration with a
16-character secret. -/
theorem validateEnvironmentVariables_checks_witness :
    "NEXTAUTH_SECRET must be at least 32 characters long" ∈
      (validateEnvironmentVariables ⟨some "postgresql://db.example.com/app",
        some "https://example.com", some "Zw9Qm3Xv7Kp5Tbn1", some "production",
        some "redis://r", some "G-1", some "FB-1"⟩).errors ∧
    (validateEnvironmentVariables ⟨some "postgresql://db.example.com/app",
      some "https://example.com", some "Zw9Qm3Xv7Kp5Tbn1", some "production",
      some "redis://r", some "G-1", some "FB-1"⟩).valid = false := by
  have h := validateEnvironmentVariables_checks ⟨some "postgresql://db.example.com/app",
    some "https://example.com", some "Zw9Qm3Xv7Kp5Tbn1", some "production",
    some "redis://r", some "G-1", some "FB-1"⟩
  exact h.1 "Zw9Qm3Xv7Kp5Tbn1" rfl (by decide) (by decide)

end Namngam
